import Mathlib

/-
Verification of the trading-agent engine of the solana-agents repository.

The JavaScript source is shallowly embedded: JS numbers are modelled as ℚ,
JS strings as String, possibly-absent fields as Option, thrown exceptions as
Except, and the outcomes of external asynchronous calls (HTTP fetches, the
remote signer, on-chain confirmation) as explicit oracle parameters.  Each
definition is a direct transcription of the corresponding JS function; the
source file and function are named in its doc comment.
-/

namespace SolanaAgents

/-! ## JavaScript string semantics helpers -/

/-- JS `String.prototype.toUpperCase` (ASCII case mapping suffices for the
token symbols used by the code). -/
def jsToUpper (s : String) : String := String.mk (s.data.map Char.toUpper)

/-- Character-level splitter underlying JS `String.prototype.split(sep)`. -/
def splitChars (sep : Char) : List Char → List (List Char)
  | [] => [[]]
  | c :: cs =>
    let rest := splitChars sep cs
    if c = sep then [] :: rest
    else
      match rest with
      | [] => [[c]]
      | g :: gs => (c :: g) :: gs

/-- JS `s.split(sep)` for a one-character separator. -/
def jsSplit (s : String) (sep : Char) : List String :=
  (splitChars sep s.data).map String.mk

/-- JS `Number(s)` restricted to non-negative decimal integers (the only use
in the scheduler is parsing the "HH" and "MM" components). `none` models NaN. -/
def jsNumberNat (s : String) : Option Nat :=
  match s.data with
  | [] => none
  | cs =>
    cs.foldl
      (fun acc c =>
        match acc with
        | none => none
        | some n => if c.isDigit then some (n * 10 + (c.toNat - 48)) else none)
      (some 0)

/-- JS `String.prototype.includes(pat)`: substring containment. -/
def strIncludes (s pat : String) : Bool :=
  (List.range (s.length + 1)).any fun i =>
    ((s.data.drop i).take pat.length) == pat.data

/-- JS `a || b` on a possibly-undefined boolean `a` (`none` models
`undefined`): returns `a` when `a` is truthy, otherwise `b`. -/
def jsOr (a : Option Bool) (b : Bool) : Bool :=
  match a with
  | some true => true
  | some false => b
  | none => b

/-! ## Status store and log ring buffer (`logger.js`, src/unnamed/part_005) -/

/-- One entry of the in-memory log buffer: `{timestamp, level, message}`
(the JS entry also carries a random `id`, irrelevant to the buffer's
behaviour). Timestamps are milliseconds since epoch. -/
structure LogEntry where
  timestamp : Nat
  level : String
  message : String
deriving Repr, DecidableEq

/-- `MAX_LOGS` from logger.js: the log buffer keeps the last 1000 entries. -/
def MAX_LOGS : Nat := 1000

/-- The buffer effect of `Logger.log`: push the entry, then `shift()` (drop
the oldest entry) whenever the length exceeds `MAX_LOGS`. -/
def logPush (logs : List LogEntry) (e : LogEntry) : List LogEntry :=
  if (logs ++ [e]).length > MAX_LOGS then (logs ++ [e]).tail else logs ++ [e]

/-- The `currentStatus` singleton of logger.js. Details are modelled as an
association list of strings and the schedule info as an opaque string. -/
structure StatusSnapshot where
  stage : String
  message : String
  timestamp : Nat
  success : Option Bool
  details : List (String × String)
  schedule : Option String
deriving Repr, DecidableEq

/-- Combined mutable state of logger.js: the log buffer plus the status
snapshot. -/
structure LoggerState where
  logs : List LogEntry
  status : StatusSnapshot
deriving Repr, DecidableEq

/-- The log entry written by `updateStatus` when `shouldLog` is true:
message `"[STAGE] message"`, level `error` when `success === false`, and an
extra checkmark prefix when `success === true`. -/
def statusLogEntry (now : Nat) (stage message : String) (success : Option Bool) : LogEntry :=
  let sm := "[" ++ jsToUpper stage ++ "] " ++ message
  match success with
  | some false => { timestamp := now, level := "error", message := sm }
  | some true => { timestamp := now, level := "info", message := "OK " ++ sm }
  | none => { timestamp := now, level := "info", message := sm }

/-- `updateStatus(stage, message, success, details, scheduleInfo, shouldLog)`
from logger.js: always overwrites the status snapshot; appends one log entry
(via `Logger.log`) only when `shouldLog` is true. -/
def updateStatus (st : LoggerState) (now : Nat) (stage message : String)
    (success : Option Bool) (details : List (String × String))
    (scheduleInfo : Option String) (shouldLog : Bool) : LoggerState :=
  let newStatus : StatusSnapshot :=
    { stage := stage, message := message, timestamp := now, success := success,
      details := details, schedule := scheduleInfo }
  if shouldLog then
    { logs := logPush st.logs (statusLogEntry now stage message success), status := newStatus }
  else
    { logs := st.logs, status := newStatus }

/-- The initial logger.js state: an empty log buffer and the idle status
snapshot. -/
def initialLoggerState : LoggerState :=
  { logs := []
    status := { stage := "idle", message := "System ready", timestamp := 0,
                success := none, details := [], schedule := none } }

/-! ## Price feed shapes and the price condition evaluator
(`price` in trading.js, src/unnamed/part_004, and `checkPriceCondition` in
baseline-range.js) -/

/-- The value returned by the upstream `price(symbol)` feed as seen by
`checkPriceCondition`: either a bare JS number, or a JS object with optional
`success`, `price` and `error` fields (`none` models an absent field). -/
inductive JsPrice where
  | num (p : ℚ)
  | obj (success : Option Bool) (price : Option ℚ) (error : Option String)
deriving Repr, DecidableEq

/-- Result record of `checkPriceCondition`. -/
structure PriceCheckResult where
  success : Bool
  conditionMet : Bool
  currentPrice : Option ℚ := none
  targetPrice : Option ℚ := none
  condition : Option String := none
  error : Option String := none
deriving Repr, DecidableEq

/-- The comparison step of `checkPriceCondition` once a numeric
`currentPrice` has been extracted: `above ? currentPrice >= targetPrice :
currentPrice <= targetPrice` (inclusive in both directions). -/
def evalPriceCondition (currentPrice targetPrice : ℚ) (above : Bool) : PriceCheckResult :=
  { success := true
    conditionMet := if above then currentPrice ≥ targetPrice else currentPrice ≤ targetPrice
    currentPrice := some currentPrice
    targetPrice := some targetPrice
    condition := some (if above then "above" else "below") }

/-- The `Invalid price format` error result of `checkPriceCondition`. -/
def invalidPriceResult (tokenToMonitor : String) : PriceCheckResult :=
  { success := false
    conditionMet := false
    error := some ("Invalid price format for " ++ tokenToMonitor) }

/-- `checkPriceCondition(tokenToMonitor, targetPrice, above)` from
baseline-range.js, with the feed's value passed explicitly. The JS branch
order is kept: an object with `success === false` is an upstream error; a
bare number is used directly; an object is accepted as the `{price}` shape
only when its `price` field is truthy (present and nonzero); anything else
is the invalid-format error. -/
def checkPriceCondition (tokenToMonitor : String) (priceResult : JsPrice)
    (targetPrice : ℚ) (above : Bool) : PriceCheckResult :=
  match priceResult with
  | .obj (some false) _ err =>
    { success := false
      conditionMet := false
      error := some ("Failed to get " ++ tokenToMonitor ++ " price: " ++ err.getD "undefined") }
  | .num p => evalPriceCondition p targetPrice above
  | .obj _ priceField _ =>
    match priceField with
    | some p => if p ≠ 0 then evalPriceCondition p targetPrice above else invalidPriceResult tokenToMonitor
    | none => invalidPriceResult tokenToMonitor

/-- The fixed 30-second poll interval of `waitForPriceCondition`. -/
def checkIntervalMs : Nat := 30000

/-- The default `maxWaitTime` of `waitForPriceCondition`: 24 hours. -/
def defaultMaxWaitMs : Nat := 24 * 60 * 60 * 1000

/-- Result record of `waitForPriceCondition`. -/
structure WaitResult where
  success : Bool
  conditionMet : Bool
  timeout : Bool := false
  currentPrice : Option ℚ := none
  error : Option String := none
deriving Repr, DecidableEq

/-- The timeout result returned (not thrown) by `waitForPriceCondition`
when `maxWaitTime` elapses. -/
def waitTimeoutResult : WaitResult :=
  { success := true, conditionMet := false, timeout := true,
    error := some "Price monitoring timeout reached" }

/-- The polling loop of `waitForPriceCondition(tokenToMonitor, targetPrice,
above, maxWaitTime)` from baseline-range.js. The feed is an oracle giving
the price value observed by poll number `i`; each non-returning iteration
sleeps `checkIntervalMs`, so poll `i` happens at elapsed time
`checkIntervalMs * i`. A failed check (`success=false`, which is also how
`checkPriceCondition` reports its own caught exceptions) does not abort the
loop: the code logs and continues after the same delay. -/
def waitGo (feed : Nat → JsPrice) (tokenToMonitor : String) (targetPrice : ℚ)
    (above : Bool) (maxWaitTime : Nat) (i : Nat) : WaitResult :=
  if h : checkIntervalMs * i < maxWaitTime then
    let pc := checkPriceCondition tokenToMonitor (feed i) targetPrice above
    if pc.success then
      if pc.conditionMet then
        { success := true, conditionMet := true, currentPrice := pc.currentPrice }
      else
        waitGo feed tokenToMonitor targetPrice above maxWaitTime (i + 1)
    else
      waitGo feed tokenToMonitor targetPrice above maxWaitTime (i + 1)
  else
    waitTimeoutResult
termination_by maxWaitTime - checkIntervalMs * i
decreasing_by
  simp only [checkIntervalMs] at *
  omega

/-- `waitForPriceCondition` entry point (poll counter starts at 0, elapsed
time starts at 0). -/
def waitForPriceCondition (feed : Nat → JsPrice) (tokenToMonitor : String)
    (targetPrice : ℚ) (above : Bool) (maxWaitTime : Nat) : WaitResult :=
  waitGo feed tokenToMonitor targetPrice above maxWaitTime 0

/-! ## Jupiter token directory cache (`getJupiterTokens`, src/unnamed/part_004) -/

/-- An entry of the Jupiter token directory. -/
structure JupToken where
  symbol : String
  address : String
  decimals : Nat
deriving Repr, DecidableEq

/-- `CACHE_DURATION` from trading.js: 5 minutes, in milliseconds. -/
def CacheDurationMs : Nat := 5 * 60 * 1000

/-- The module-level cache state of trading.js: `jupiterTokensCache`
(`none` models the initial `null`) and `jupiterTokensCacheTime`. -/
structure TokenCacheState where
  cache : Option (List JupToken)
  time : Nat
deriving Repr, DecidableEq

/-- Outcome of one attempted `fetch` of the token list: a parsed body on an
ok response, a response with `response.ok` false (which the code silently
ignores), or a thrown network error. -/
inductive FetchOutcome where
  | ok (tokens : List JupToken)
  | httpNotOk
  | netError (msg : String)
deriving Repr, DecidableEq

/-- A refresh attempt that failed: either an HTTP response with `ok` false
or a thrown network error. -/
def fetchFails (fetch : FetchOutcome) : Prop :=
  fetch = .httpNotOk ∨ ∃ m, fetch = .netError m

/-- `getJupiterTokens()` from trading.js, with the current time and the
fetch outcome passed as oracles. Refreshes only when there is no cache or
the cache is older than `CacheDurationMs`; a thrown fetch error is caught
and rethrown as `Unable to fetch token list from Jupiter API` only when no
cache exists; otherwise the existing (possibly stale) cache is returned.
Returns the (possibly updated) cache value and state. -/
def getJupiterTokens (st : TokenCacheState) (now : Nat) (fetch : FetchOutcome) :
    Except String (Option (List JupToken) × TokenCacheState) :=
  if st.cache = none ∨ now - st.time > CacheDurationMs then
    match fetch with
    | .ok ts => .ok (some ts, { cache := some ts, time := now })
    | .httpNotOk => .ok (st.cache, st)
    | .netError _ =>
      if st.cache = none then .error "Unable to fetch token list from Jupiter API"
      else .ok (st.cache, st)
  else
    .ok (st.cache, st)

/-! ## The swap pipeline (`swap`, src/unnamed/part_004) -/

/-- Outcome of one HTTP call to a Jupiter endpoint: a parsed body, a
non-ok HTTP response, or a thrown error (network failure / timeout). -/
inductive ApiOutcome (α : Type) where
  | ok (val : α)
  | httpError (status : Nat) (text : String)
  | exn (msg : String)

/-- The fields of a Jupiter quote used by `swap` (the `outAmount` of `0`
doubles for a missing/zero amount, which the code treats as no route). -/
structure JupQuote where
  outAmount : Nat
  priceImpactPct : ℚ
deriving Repr, DecidableEq

/-- The options object of `swap` with its default values. -/
structure SwapOptions where
  slippageBps : Nat := 150
  maxRetries : Nat := 3
  confirmTransaction : Bool := true
deriving Repr, DecidableEq

/-- Outcome of `connection.confirmTransaction`: confirmed cleanly, confirmed
with an on-chain error (`confirmation.value.err` set), or the confirmation
call itself threw (e.g. a timeout). -/
inductive ConfirmOutcome where
  | confirmed
  | chainError (err : String)
  | exn (msg : String)
deriving Repr, DecidableEq

/-- Oracle environment for one `swap` execution: the token-directory
outcome, the quote and swap-transaction responses indexed by attempt number,
the remote signer outcome (an `Except` error models a throw), and the
confirmation outcome. -/
structure SwapEnv where
  tokensResult : Except String (List JupToken)
  quoteResp : Nat → ApiOutcome JupQuote
  swapResp : Nat → ApiOutcome (Option String)
  signResult : Except String String
  confirm : ConfirmOutcome

/-- The quote retry loop of `swap` (attempts `1..maxRetries`, linear backoff
between attempts): one fetch per attempt; an ok response with a zero/missing
`outAmount` is a `No valid route` error; the error of the final attempt is
rethrown. `remaining` counts the retries still allowed after the current
attempt, so the loop is entered with `maxRetries - 1`. Returns the outcome
together with the number (index) of the last quote request made. -/
def quoteLoop (resp : Nat → ApiOutcome JupQuote) (remaining attempt : Nat) :
    Except String JupQuote × Nat :=
  let attemptResult : Except String JupQuote :=
    match resp attempt with
    | .ok q =>
      if q.outAmount = 0 then .error "No valid route found for this swap" else .ok q
    | .httpError status text => .error ("Quote API error " ++ toString status ++ ": " ++ text)
    | .exn m => .error m
  match attemptResult with
  | .ok q => (.ok q, attempt)
  | .error m =>
    match remaining with
    | 0 => (.error m, attempt)
    | r + 1 => quoteLoop resp r (attempt + 1)

/-- The swap-transaction retry loop of `swap`: same retry policy as the
quote loop; an ok response without a `swapTransaction` field is the
`No swap transaction received from Jupiter` error. -/
def swapTxLoop (resp : Nat → ApiOutcome (Option String)) (remaining attempt : Nat) :
    Except String String × Nat :=
  let attemptResult : Except String String :=
    match resp attempt with
    | .ok (some txn) => .ok txn
    | .ok none => .error "No swap transaction received from Jupiter"
    | .httpError status text => .error ("Swap API error " ++ toString status ++ ": " ++ text)
    | .exn m => .error m
  match attemptResult with
  | .ok txn => (.ok txn, attempt)
  | .error m =>
    match remaining with
    | 0 => (.error m, attempt)
    | r + 1 => swapTxLoop resp r (attempt + 1)

/-- The substring-based error classifier in the catch block of `swap`. -/
def classifySwapError (msg : String) : String :=
  if strIncludes msg "insufficient" then "insufficient_funds"
  else if strIncludes msg "slippage" then "slippage_exceeded"
  else if strIncludes msg "timeout" then "timeout"
  else if strIncludes msg "route" then "no_route"
  else "unknown"

/-- The result record of `swap` (execution-time fields are omitted). -/
structure SwapResult where
  success : Bool
  signature : Option String := none
  rawFromAmount : Option Int := none
  estimatedToAmount : Option Nat := none
  fromToken : Option String := none
  toToken : Option String := none
  priceImpact : Option ℚ := none
  error : Option String := none
  errorCategory : Option String := none
deriving Repr, DecidableEq

/-- Case-insensitive token lookup used by `swap` (`t.symbol &&
t.symbol.toUpperCase() === sym.toUpperCase()`; an empty symbol is falsy). -/
def findTokenBySymbol (tokens : List JupToken) (sym : String) : Option JupToken :=
  tokens.find? fun t => t.symbol != "" && jsToUpper t.symbol == jsToUpper sym

/-- The try-block of `swap(walletId, fromTokenSymbol, toTokenSymbol,
fromAmount, walletAddress, options)` from trading.js; a returned `.error`
models a throw reaching the catch block. After the transaction is broadcast
(the signer returned a hash) the optional confirmation step only logs:
neither a confirmation reporting an on-chain error nor a confirmation call
that throws is consulted for the returned result, which is `success:true`
carrying the broadcast signature (`env.confirm` is accordingly never read).
The second component counts the requests made to the quote endpoint. -/
def swapBody (fromTokenSymbol toTokenSymbol : String) (fromAmount : ℚ)
    (options : SwapOptions) (env : SwapEnv) : Except String SwapResult × Nat :=
  match env.tokensResult with
  | .error m => (.error m, 0)
  | .ok tokens =>
    match findTokenBySymbol tokens fromTokenSymbol, findTokenBySymbol tokens toTokenSymbol with
    | some fromTokenInfo, some _toTokenInfo =>
      let rawAmount : Int := Int.floor (fromAmount * (10 : ℚ) ^ fromTokenInfo.decimals)
      match quoteLoop env.quoteResp (options.maxRetries - 1) 1 with
      | (.error m, n) => (.error m, n)
      | (.ok quoteData, n) =>
        match swapTxLoop env.swapResp (options.maxRetries - 1) 1 with
        | (.error m, _) => (.error m, n)
        | (.ok _txn, _) =>
          match env.signResult with
          | .error m => (.error m, n)
          | .ok hash =>
            (.ok { success := true
                   signature := some hash
                   rawFromAmount := some rawAmount
                   estimatedToAmount := some quoteData.outAmount
                   fromToken := some fromTokenSymbol
                   toToken := some toTokenSymbol
                   priceImpact := some quoteData.priceImpactPct }, n)
    | _, _ =>
      (.error ("Token not found: " ++ fromTokenSymbol ++ " or " ++ toTokenSymbol), 0)

/-- The catch wrapper of `swap` around `swapBody`. -/
def swap (fromTokenSymbol toTokenSymbol : String) (fromAmount : ℚ)
    (options : SwapOptions) (env : SwapEnv) : SwapResult × Nat :=
  match swapBody fromTokenSymbol toTokenSymbol fromAmount options env with
  | (.ok r, n) => (r, n)
  | (.error m, n) =>
    ({ success := false, error := some m, errorCategory := some (classifySwapError m) }, n)

/-! ## The universal transfer path (`transfer`, src/unnamed/part_004) -/

/-- The instructions assembled by `transfer`. -/
inductive TransferInstr where
  | solTransfer (lamports : Int)
  | createAssociatedTokenAccount
  | splTransfer (rawAmount : Int)
deriving Repr, DecidableEq

/-- Oracle environment for one `transfer` execution. `tokenLookup` is the
outcome of `getTokenMintAddress` (an error models its `success:false`
result); `signResult` and `confirm` are as in `SwapEnv`. -/
structure TransferEnv where
  blockhashResult : Except String String
  tokenLookup : Except String JupToken
  toAccountExists : Bool
  signResult : Except String String
  confirm : ConfirmOutcome

/-- The result record of `transfer`. -/
structure TransferResult where
  success : Bool
  signature : Option String := none
  amount : Option ℚ := none
  token : Option String := none
  error : Option String := none
deriving Repr, DecidableEq

/-- The confirmation step of `transfer`, entered once the transaction has
been broadcast (hash returned by the signer): a confirmation whose
`value.err` is set makes the function return `success:false`, while a clean
confirmation or a confirmation call that throws (only logged) lets it fall
through to the `success:true` result carrying the broadcast signature. -/
def transferAfterBroadcast (tokenSymbol : String) (amount : ℚ) (hash : String)
    (confirm : ConfirmOutcome) : TransferResult :=
  match confirm with
  | .chainError e => { success := false, error := some ("Transaction failed: " ++ e) }
  | _ => { success := true, signature := some hash,
           amount := some amount, token := some tokenSymbol }

/-- `transfer(walletId, fromWalletAddress, toAddress, tokenSymbol, amount)`
from trading.js. For `SOL` a direct lamport transfer instruction is built;
for any other token the mint is resolved, an account-creation instruction is
emitted when the recipient's associated account does not exist, then the
SPL transfer instruction. After broadcast the confirmation step is
`transferAfterBroadcast`. -/
def transfer (tokenSymbol : String) (amount : ℚ) (env : TransferEnv) : TransferResult :=
  let body : Except String TransferResult :=
    match env.blockhashResult with
    | .error m => .error m
    | .ok _blockhash =>
      let instructionsResult : Except String (List TransferInstr) :=
        if jsToUpper tokenSymbol = "SOL" then
          .ok [.solTransfer (Int.floor (amount * 1000000000))]
        else
          match env.tokenLookup with
          | .error m => .error ("Token " ++ tokenSymbol ++ " not found: " ++ m)
          | .ok tokenInfo =>
            let rawAmount : Int := Int.floor (amount * (10 : ℚ) ^ tokenInfo.decimals)
            .ok ((if env.toAccountExists then [] else [.createAssociatedTokenAccount]) ++
              [.splTransfer rawAmount])
      match instructionsResult with
      | .error m => .error m
      | .ok _instructions =>
        match env.signResult with
        | .error m => .error m
        | .ok hash => .ok (transferAfterBroadcast tokenSymbol amount hash env.confirm)
  match body with
  | .ok r => r
  | .error m => { success := false, error := some m }

/-! ## The DCA driver's immediate trade execution
(`baselineFunction`, baseline-dca.js, trading-execution section) -/

/-- One entry of `getBalances(...).allBalances`. -/
structure WalletToken where
  symbol : String
  uiAmount : ℚ
deriving Repr, DecidableEq

/-- The wallet-balance lookup of baseline-dca.js: `balances.allBalances.find(
token => token.symbol && token.symbol.toUpperCase() === fromTokenUpper)`. -/
def findWalletToken (balances : List WalletToken) (fromToken : String) : Option WalletToken :=
  balances.find? fun t => t.symbol != "" && jsToUpper t.symbol == jsToUpper fromToken

/-- `minRequiredSOL` from baseline-dca.js: 0.0021 SOL of fee headroom. -/
def minRequiredSOL : ℚ := 21 / 10000

/-- The driver-level trade result (the swap result spread into the driver's
return object; timestamp and executionType fields omitted). -/
structure TradeRunResult where
  success : Bool
  error : Option String := none
  errorCategory : Option String := none
  signature : Option String := none
deriving Repr, DecidableEq

/-- Oracle environment for the driver's trading-execution section: the
wallet balances, the destination-token lookup outcome, whether the
destination token account already exists, and the swap environment. -/
structure DcaEnv where
  balances : List WalletToken
  toTokenLookup : Except String JupToken
  accountExists : Bool
  swapEnv : SwapEnv

/-- The hard-coded swap options of baseline-dca.js (1.5% slippage,
`maxRetries: 2`, confirmation on). -/
def dcaSwapOptions : SwapOptions :=
  { slippageBps := 150, maxRetries := 2, confirmTransaction := true }

/-- The trading-execution section of `baselineFunction` in baseline-dca.js
(after the balance gate): look up `fromToken` in the wallet; fail fast when
it is absent or its balance is below `amount`; resolve the destination
token; enforce the SOL fee reserve when the source token is SOL; otherwise
run `swap`. The second component counts requests made to the quote
endpoint; every fail-fast path returns before `swap` is called, so it makes
none. -/
def executeImmediateTrade (fromToken toToken : String) (amount : ℚ) (env : DcaEnv) :
    TradeRunResult × Nat :=
  match findWalletToken env.balances fromToken with
  | none =>
    ({ success := false, error := some ("Wallet does not have " ++ fromToken) }, 0)
  | some tokenObj =>
    if tokenObj.uiAmount < amount then
      ({ success := false
         error := some ("Insufficient " ++ fromToken ++ " balance. Available: " ++
           toString tokenObj.uiAmount ++ ", required: " ++ toString amount) }, 0)
    else
      match env.toTokenLookup with
      | .error e =>
        ({ success := false
           error := some ("Failed to get mint address for " ++ toToken ++ ": " ++ e) }, 0)
      | .ok _toTokenInfo =>
        if jsToUpper fromToken = "SOL" ∧ tokenObj.uiAmount < minRequiredSOL then
          ({ success := false
             error := some "Insufficient SOL for Jupiter swap operations" }, 0)
        else
          let sr := swap fromToken toToken amount dcaSwapOptions env.swapEnv
          ({ success := sr.1.success, error := sr.1.error,
             errorCategory := sr.1.errorCategory, signature := sr.1.signature }, sr.2)

/-! ## Scheduler (`scheduler.js`) -/

/-- The value a schedule callback resolves with, as far as the wrapper
inspects it: possibly an object carrying a `success` field (`none` models an
absent field). -/
structure CbResult where
  success : Option Bool
deriving Repr, DecidableEq

/-- Outcome of awaiting one callback invocation: it resolved (possibly with
`undefined`, modelled by `none`) or it threw. -/
inductive CallbackOutcome where
  | resolved (result : Option CbResult)
  | threw (msg : String)
deriving Repr, DecidableEq

/-- The `lastExecution` record stored by the scheduler's wrapped function.
On the resolve path the record carries a duration and the details
(`result || {}`); on the throw path it carries the error message instead. -/
structure LastExecution where
  timestamp : Nat
  durationMs : Option Nat
  success : Bool
  details : Option CbResult
  error : Option String
deriving Repr, DecidableEq

/-- The `wrappedFunction` of both `scheduleInterval` and `scheduleTimes` in
scheduler.js: the callback is awaited inside try/catch, and a
`lastExecution` record is always produced — a thrown callback error is
caught and recorded, never rethrown to the timer. On the resolve path the
stored success flag is the JS expression `result?.success || true`. -/
def recordExecution (now durationMs : Nat) (outcome : CallbackOutcome) : LastExecution :=
  match outcome with
  | .resolved result =>
    { timestamp := now
      durationMs := some durationMs
      success := jsOr (result.bind CbResult.success) true
      details := some (result.getD { success := none })
      error := none }
  | .threw msg =>
    { timestamp := now
      durationMs := none
      success := false
      details := none
      error := some msg }

/-- A parsed `{hour, minute}` wall-clock time of a daily-times schedule. -/
structure HM where
  hour : Nat
  minute : Nat
deriving Repr, DecidableEq

/-- The comparator key of scheduler.js's sort: `hour * 60 + minute`. -/
def hmKey (t : HM) : Nat := t.hour * 60 + t.minute

/-- Milliseconds after midnight of a configured time, as used by
`scheduleNext` (`hour * 3600000 + minute * 60000`). -/
def hmMs (t : HM) : Nat := t.hour * 3600000 + t.minute * 60000

/-- Parsing one "HH:MM" string: `timeStr.split(':').map(Number)`. -/
def parseHM (s : String) : HM :=
  let parts := jsSplit s ':'
  { hour := ((parts.get? 0).bind jsNumberNat).getD 0
    minute := ((parts.get? 1).bind jsNumberNat).getD 0 }

/-- `parsedTimes` of `scheduleTimes`: each string parsed, then sorted
ascending by `hmKey` (the JS comparator `a.hour*60+a.minute -
(b.hour*60+b.minute)`). -/
def parseTimes (times : List String) : List HM :=
  (times.map parseHM).insertionSort fun a b => hmKey a ≤ hmKey b

/-- Milliseconds per day. -/
def msPerDay : Nat := 24 * 3600000

/-- The next-fire computation of `scheduleNext` in `scheduleTimes`:
`todayUtc` is the UTC midnight of `nowMs`; the next execution is the first
configured time on the sorted list whose execution instant today is
strictly after now, and otherwise the first configured time tomorrow.
`none` only for an empty times list. -/
def nextExecutionMs (times : List HM) (nowMs : Nat) : Option Nat :=
  let todayMs := nowMs - nowMs % msPerDay
  match times.find? (fun t => todayMs + hmMs t > nowMs) with
  | some t => some (todayMs + hmMs t)
  | none =>
    match times.head? with
    | some t0 => some (todayMs + msPerDay + hmMs t0)
    | none => none

/-! ## Concrete fixtures used by witness theorems -/

/-- A two-entry token directory for concrete executions. -/
def witnessTokens : List JupToken :=
  [{ symbol := "SOL", address := "So11111111111111111111111111111111111111112", decimals := 9 },
   { symbol := "USDC", address := "EPjFWdd5AufqSSqeM2qN1xzybapC8G4wEGGkZwyTDt1v", decimals := 6 }]

/-- A swap environment in which every external call succeeds and the
confirmation reports an on-chain error. -/
def witnessSwapEnv : SwapEnv :=
  { tokensResult := .ok witnessTokens
    quoteResp := fun _ => .ok { outAmount := 5, priceImpactPct := 0 }
    swapResp := fun _ => .ok (some "txn")
    signResult := .ok "hash123"
    confirm := .chainError "boom" }

/-- A transfer environment whose confirmation call throws (timeout). -/
def witnessTransferEnvTimeout : TransferEnv :=
  { blockhashResult := .ok "bh", tokenLookup := .error "unused",
    toAccountExists := true, signResult := .ok "hashT",
    confirm := .exn "confirm timed out" }

/-- A transfer environment whose confirmation reports an on-chain error. -/
def witnessTransferEnvChainError : TransferEnv :=
  { blockhashResult := .ok "bh", tokenLookup := .error "unused",
    toAccountExists := true, signResult := .ok "hashT",
    confirm := .chainError "boom" }

/-- The USDC entry of `witnessTokens`, used as a resolved mint for SPL
transfer witnesses. -/
def witnessUsdcToken : JupToken :=
  { symbol := "USDC", address := "EPjFWdd5AufqSSqeM2qN1xzybapC8G4wEGGkZwyTDt1v", decimals := 6 }

/-- An SPL-token transfer environment (mint resolved, recipient account
missing so the account-creation instruction is emitted) whose confirmation
call throws (timeout). -/
def witnessTransferEnvSplTimeout : TransferEnv :=
  { blockhashResult := .ok "bh", tokenLookup := .ok witnessUsdcToken,
    toAccountExists := false, signResult := .ok "hashT",
    confirm := .exn "confirm timed out" }

/-- An SPL-token transfer environment (mint resolved) whose confirmation
reports an on-chain error. -/
def witnessTransferEnvSplChainError : TransferEnv :=
  { blockhashResult := .ok "bh", tokenLookup := .ok witnessUsdcToken,
    toAccountExists := false, signResult := .ok "hashT",
    confirm := .chainError "boom" }

/-! ## Helper lemmas -/

lemma logPush_length_le (logs : List LogEntry) (e : LogEntry) (h : logs.length ≤ MAX_LOGS) :
    (logPush logs e).length ≤ MAX_LOGS := by
  unfold logPush
  split
  · rename_i hlen
    simp only [List.length_tail, List.length_append, List.length_cons, List.length_nil]
    omega
  · rename_i hlen
    simp only [List.length_append, List.length_cons, List.length_nil] at hlen ⊢
    omega

lemma logPush_eq_drop (logs : List LogEntry) (e : LogEntry) (h : logs.length ≤ MAX_LOGS) :
    logPush logs e = (logs ++ [e]).drop ((logs ++ [e]).length - MAX_LOGS) := by
  unfold logPush
  split
  · rename_i hlen
    rw [← List.drop_one]
    have hidx : (logs ++ [e]).length - MAX_LOGS = 1 := by
      simp only [List.length_append, List.length_cons, List.length_nil] at hlen ⊢
      omega
    rw [hidx]
  · rename_i hlen
    have hz : (logs ++ [e]).length - MAX_LOGS = 0 := by
      simp only [List.length_append, List.length_cons, List.length_nil] at hlen ⊢
      omega
    rw [hz, List.drop_zero]

lemma foldl_logPush_drop (es : List LogEntry) :
    ∀ init : List LogEntry, init.length ≤ MAX_LOGS →
      es.foldl logPush init = (init ++ es).drop ((init ++ es).length - MAX_LOGS) := by
  induction es with
  | nil =>
    intro init h
    simp only [List.foldl_nil, List.append_nil]
    rw [Nat.sub_eq_zero_of_le h, List.drop_zero]
  | cons e es ih =>
    intro init h
    rw [List.foldl_cons, ih (logPush init e) (logPush_length_le init e h),
      logPush_eq_drop init e h]
    have hk : (init ++ [e]).length - MAX_LOGS ≤ (init ++ [e]).length := Nat.sub_le _ _
    rw [← List.drop_append_of_le_length hk, List.drop_drop]
    have hidx : ((init ++ [e]).length - MAX_LOGS) +
        ((((init ++ [e]) ++ es).drop ((init ++ [e]).length - MAX_LOGS)).length - MAX_LOGS) =
        ((init ++ [e]) ++ es).length - MAX_LOGS := by
      simp only [List.length_append, List.length_drop, List.length_cons, List.length_nil]
      omega
    rw [hidx, List.append_assoc, List.singleton_append]

lemma swap_confirm_not_read (fromSym toSym : String) (amt : ℚ) (opts : SwapOptions)
    (env : SwapEnv) (c : ConfirmOutcome) :
    swap fromSym toSym amt opts { env with confirm := c } =
      swap fromSym toSym amt opts env := by
  rcases env with ⟨tr, qr, sr, sg, c0⟩
  rfl

lemma swapBody_ok_inv (f t : String) (a : ℚ) (o : SwapOptions) (env : SwapEnv)
    (r : SwapResult) (n : Nat) (h : swapBody f t a o env = (.ok r, n)) :
    r.success = true ∧ ∃ hash, env.signResult = .ok hash ∧ r.signature = some hash := by
  unfold swapBody at h
  split at h
  · exact absurd h (by simp)
  · split at h
    · split at h
      · exact absurd h (by simp)
      · split at h
        · exact absurd h (by simp)
        · split at h
          · exact absurd h (by simp)
          · rename_i hash heq
            injection h with h1 h2
            injection h1 with h3
            subst h3
            exact ⟨rfl, hash, heq, rfl⟩
    · exact absurd h (by simp)

lemma swap_signature_success (f t : String) (a : ℚ) (o : SwapOptions) (env : SwapEnv)
    (sig : String) (hsig : (swap f t a o env).1.signature = some sig) :
    (swap f t a o env).1.success = true ∧ env.signResult = .ok sig := by
  rcases hb : swapBody f t a o env with ⟨res, n⟩
  cases res with
  | ok r =>
    have hs : swap f t a o env = (r, n) := by
      unfold swap
      rw [hb]
    rw [hs] at hsig ⊢
    obtain ⟨h1, hash, h2, h3⟩ := swapBody_ok_inv f t a o env r n hb
    refine ⟨h1, ?_⟩
    rw [h3] at hsig
    injection hsig with h4
    rw [← h4]
    exact h2
  | error m =>
    have hs : swap f t a o env =
        ({ success := false, error := some m,
           errorCategory := some (classifySwapError m) }, n) := by
      unfold swap
      rw [hb]
    rw [hs] at hsig
    exact absurd hsig (by simp)

lemma transfer_sol_reaches_broadcast (tokenSymbol : String) (amt : ℚ) (env : TransferEnv)
    (bh hash : String) (hbh : env.blockhashResult = .ok bh)
    (hsol : jsToUpper tokenSymbol = "SOL") (hsig : env.signResult = .ok hash) :
    transfer tokenSymbol amt env = transferAfterBroadcast tokenSymbol amt hash env.confirm := by
  simp only [transfer, hbh, hsol, hsig, if_true, eq_self_iff_true, if_pos]

lemma transfer_spl_reaches_broadcast (tokenSymbol : String) (amt : ℚ) (env : TransferEnv)
    (bh hash : String) (tokenInfo : JupToken) (hbh : env.blockhashResult = .ok bh)
    (hns : ¬(jsToUpper tokenSymbol = "SOL")) (htok : env.tokenLookup = .ok tokenInfo)
    (hsig : env.signResult = .ok hash) :
    transfer tokenSymbol amt env = transferAfterBroadcast tokenSymbol amt hash env.confirm := by
  simp only [transfer, hbh, htok, hsig, if_neg hns]

lemma waitGo_timeout_of_never_met (feed : Nat → JsPrice) (tok : String) (target : ℚ)
    (above : Bool) (maxWait : Nat)
    (hall : ∀ i, checkIntervalMs * i < maxWait →
      ¬((checkPriceCondition tok (feed i) target above).success = true ∧
        (checkPriceCondition tok (feed i) target above).conditionMet = true)) :
    ∀ k i, maxWait - checkIntervalMs * i ≤ k →
      waitGo feed tok target above maxWait i = waitTimeoutResult := by
  intro k
  induction k with
  | zero =>
    intro i hk
    rw [waitGo]
    split
    · rename_i hlt
      exfalso
      simp only [checkIntervalMs] at hlt hk
      omega
    · rfl
  | succ k ih =>
    intro i hk
    rw [waitGo]
    split
    · rename_i hlt
      have hstep : maxWait - checkIntervalMs * (i + 1) ≤ k := by
        simp only [checkIntervalMs] at hlt hk ⊢
        omega
      have hni := hall i hlt
      cases hs : (checkPriceCondition tok (feed i) target above).success with
      | false =>
        simp only [hs]
        exact ih (i + 1) hstep
      | true =>
        have hm : (checkPriceCondition tok (feed i) target above).conditionMet = false := by
          cases hm2 : (checkPriceCondition tok (feed i) target above).conditionMet
          · rfl
          · exact absurd ⟨hs, hm2⟩ hni
        simp only [hs, hm]
        simpa using ih (i + 1) hstep
    · rfl

lemma hmMs_eq_key (t : HM) : hmMs t = 60000 * hmKey t := by
  unfold hmMs hmKey
  ring

lemma parseTimes_sorted (ts : List String) :
    (parseTimes ts).Pairwise fun a b => hmKey a ≤ hmKey b := by
  unfold parseTimes
  haveI : IsTotal HM fun a b => hmKey a ≤ hmKey b := ⟨fun a b => Nat.le_total _ _⟩
  haveI : IsTrans HM fun a b => hmKey a ≤ hmKey b := ⟨fun a b c h1 h2 => Nat.le_trans h1 h2⟩
  exact List.sorted_insertionSort _ _

lemma find?_min_of_sorted (p : HM → Bool) (l : List HM) (x : HM)
    (hsort : l.Pairwise fun a b => hmKey a ≤ hmKey b) (hfind : l.find? p = some x) :
    ∀ y ∈ l, p y = true → hmKey x ≤ hmKey y := by
  induction l with
  | nil => simp at hfind
  | cons a l ih =>
    cases hp : p a with
    | false =>
      rw [List.find?_cons_of_neg _ (by simp [hp])] at hfind
      intro y hy hpy
      rcases List.mem_cons.mp hy with rfl | hy'
      · exact absurd hpy (by simp [hp])
      · exact ih (List.Pairwise.of_cons hsort) hfind y hy' hpy
    | true =>
      rw [List.find?_cons_of_pos _ hp] at hfind
      have hx : x = a := by
        injection hfind with h1
        exact h1.symm
      subst hx
      intro y hy _
      rcases List.mem_cons.mp hy with rfl | hy'
      · exact Nat.le_refl _
      · exact (List.pairwise_cons.mp hsort).1 y hy'

/-! ## Claims -/

/-- Claim C1 (code bug): the scheduler's wrapped callback stores a
`lastExecution` record for both a resolved and a thrown callback and never
rethrows, but on the resolve path the stored flag is
`result?.success || true`, which evaluates to `true` even when the callback
resolved with `{success: false}` — the record's own `details` field still
carries `success: false`, contradicting the stored top-level flag. A thrown
callback is recorded with `success: false` and the error message. -/
theorem claim_C1_success_false_recorded_as_true :
    (recordExecution 0 0 (.resolved (some { success := some false }))).success = true ∧
    (recordExecution 0 0 (.resolved (some { success := some false }))).details =
      some { success := some false } ∧
    (recordExecution 0 0 (.threw "boom")).success = false ∧
    (recordExecution 0 0 (.threw "boom")).error = some "boom" :=
  ⟨rfl, rfl, rfl, rfl⟩

/-- Claim C5: over any sequence of log appends starting from the empty
buffer, the buffer never exceeds `MAX_LOGS = 1000` entries and always equals
the most recent at-most-1000 entries in append order (FIFO eviction of the
oldest). -/
theorem claim_C5_log_buffer_capped_fifo (es : List LogEntry) :
    (es.foldl logPush []).length ≤ MAX_LOGS ∧
    es.foldl logPush [] = es.drop (es.length - MAX_LOGS) := by
  have h := foldl_logPush_drop es [] (by simp)
  simp only [List.nil_append] at h
  refine ⟨?_, h⟩
  rw [h]
  simp only [List.length_drop]
  omega

/-- Claim C9: `updateStatus` with `shouldLog=false` replaces the status
snapshot with the given stage, message, success, details and schedule info
while leaving the log buffer completely unchanged; with `shouldLog=true` it
performs the same snapshot replacement and additionally appends exactly the
one status log entry (via the buffer's bounded push); when the buffer is
below capacity that push is a plain one-element append. -/
theorem claim_C9_updateStatus_frame (st : LoggerState) (now : Nat) (stage message : String)
    (success : Option Bool) (details : List (String × String)) (scheduleInfo : Option String) :
    (updateStatus st now stage message success details scheduleInfo false).logs = st.logs ∧
    (updateStatus st now stage message success details scheduleInfo false).status =
      { stage := stage, message := message, timestamp := now, success := success,
        details := details, schedule := scheduleInfo } ∧
    (updateStatus st now stage message success details scheduleInfo true).status =
      { stage := stage, message := message, timestamp := now, success := success,
        details := details, schedule := scheduleInfo } ∧
    (updateStatus st now stage message success details scheduleInfo true).logs =
      logPush st.logs (statusLogEntry now stage message success) ∧
    (st.logs.length < MAX_LOGS →
      (updateStatus st now stage message success details scheduleInfo true).logs =
        st.logs ++ [statusLogEntry now stage message success]) := by
  refine ⟨rfl, rfl, rfl, rfl, fun hlt => ?_⟩
  show logPush st.logs (statusLogEntry now stage message success) = _
  unfold logPush
  rw [if_neg]
  simp only [List.length_append, List.length_cons, List.length_nil]
  omega

/-- Witness for claim C9 at a concrete state: publishing with logging on
from the initial state appends exactly one entry. -/
theorem claim_C9_witness :
    (updateStatus initialLoggerState 5 "waiting" "msg" none [] none true).logs =
      initialLoggerState.logs ++ [statusLogEntry 5 "waiting" "msg" none] := by
  have h := claim_C9_updateStatus_frame initialLoggerState 5 "waiting" "msg" none [] none
  exact h.2.2.2.2 (by decide)

/-- Claim C10: a feed value that is an object whose `price` field is falsy
(zero, or absent) is not evaluated against a price of 0: the evaluator
returns the invalid-price-format error result with `success=false` and
`conditionMet=false`, for every target price and direction. -/
theorem claim_C10_falsy_price_rejected (tokenToMonitor : String) (target : ℚ) (above : Bool) :
    checkPriceCondition tokenToMonitor (.obj none (some 0) none) target above =
      invalidPriceResult tokenToMonitor ∧
    checkPriceCondition tokenToMonitor (.obj none none none) target above =
      invalidPriceResult tokenToMonitor ∧
    (invalidPriceResult tokenToMonitor).success = false ∧
    (invalidPriceResult tokenToMonitor).conditionMet = false := by
  refine ⟨?_, rfl, rfl, rfl⟩
  show (if (0 : ℚ) ≠ 0 then evalPriceCondition 0 target above
        else invalidPriceResult tokenToMonitor) = invalidPriceResult tokenToMonitor
  rw [if_neg]
  simp

/-- Counterexample to claim C4 as stated: the feed value `{price: 0}` is "a
`{price}` object", but it is not normalized to its price — with target 0 and
direction Above, normalization would yield `success=true` and
`conditionMet=true` (0 ≥ 0), while the code returns the invalid-format
error with `success=false`. -/
theorem claim_C4_counterexample :
    (checkPriceCondition "SOL" (.obj none (some 0) none) 0 true).success = false ∧
    (checkPriceCondition "SOL" (.obj none (some 0) none) 0 true).conditionMet = false ∧
    (evalPriceCondition 0 0 true).success = true ∧
    (evalPriceCondition 0 0 true).conditionMet = true := by
  decide

/-- Claim C4 as amended: a bare number `n` yields `success=true` with
`conditionMet = (n ≥ target)` for Above and `(n ≤ target)` for Below
(inclusive boundary); a `{success:false,error}` object yields
`success=false` and `conditionMet=false`; a `{price}` object is normalized
to its price provided the price is truthy (nonzero), while a `{price: 0}`
object — like any other unrecognized shape — yields the invalid-format
error result, not a silent default; `checkPriceCondition("SOL", 100,
Above)` with feed `105` yields `conditionMet=true` and with `95` yields
`conditionMet=false`. -/
theorem claim_C4_price_shapes (tokenToMonitor : String) (target n p : ℚ) (e : String)
    (above : Bool) :
    checkPriceCondition tokenToMonitor (.num n) target above =
      evalPriceCondition n target above ∧
    (evalPriceCondition n target above).success = true ∧
    ((evalPriceCondition n target above).conditionMet = true ↔
      (if above then n ≥ target else n ≤ target)) ∧
    (p ≠ 0 → checkPriceCondition tokenToMonitor (.obj none (some p) none) target above =
      evalPriceCondition p target above) ∧
    (checkPriceCondition tokenToMonitor (.obj (some false) none (some e)) target above).success
      = false ∧
    (checkPriceCondition tokenToMonitor
      (.obj (some false) none (some e)) target above).conditionMet = false ∧
    checkPriceCondition tokenToMonitor (.obj none (some 0) none) target above =
      invalidPriceResult tokenToMonitor ∧
    checkPriceCondition tokenToMonitor (.obj none none none) target above =
      invalidPriceResult tokenToMonitor ∧
    (checkPriceCondition "SOL" (.num 105) 100 true).success = true ∧
    (checkPriceCondition "SOL" (.num 105) 100 true).conditionMet = true ∧
    (checkPriceCondition "SOL" (.num 95) 100 true).success = true ∧
    (checkPriceCondition "SOL" (.num 95) 100 true).conditionMet = false := by
  refine ⟨rfl, rfl, ?_, fun hp => ?_, rfl, rfl, ?_, rfl, by decide, by decide, by decide,
    by decide⟩
  · unfold evalPriceCondition
    cases above <;> simp
  · show (if p ≠ 0 then evalPriceCondition p target above
          else invalidPriceResult tokenToMonitor) = evalPriceCondition p target above
    rw [if_pos hp]
  · show (if (0 : ℚ) ≠ 0 then evalPriceCondition 0 target above
          else invalidPriceResult tokenToMonitor) = invalidPriceResult tokenToMonitor
    rw [if_neg]
    simp

/-- Witness for claim C4: a truthy `{price: 1}` object is normalized. -/
theorem claim_C4_witness :
    checkPriceCondition "SOL" (.obj none (some 1) none) 100 true =
      evalPriceCondition 1 100 true := by
  have h := claim_C4_price_shapes "SOL" 100 105 1 "x" true
  exact h.2.2.2.1 (by norm_num)

/-- Claim C7: the token directory is served from a cache with a 5-minute
TTL (a fresh cache is returned unchanged whatever the network would do);
when a refresh attempt fails but a previously fetched cache exists, the
stale cache is returned instead of throwing; and the function throws only
when no cache exists yet and the refresh attempt also failed with a thrown
fetch error. -/
theorem claim_C7_token_cache_ttl_stale (c : List JupToken) (t now : Nat)
    (st : TokenCacheState) (fetch : FetchOutcome) (msg : String) :
    (now - t ≤ CacheDurationMs →
      getJupiterTokens { cache := some c, time := t } now fetch =
        .ok (some c, { cache := some c, time := t })) ∧
    (fetchFails fetch →
      getJupiterTokens { cache := some c, time := t } now fetch =
        .ok (some c, { cache := some c, time := t })) ∧
    (getJupiterTokens st now fetch = .error msg →
      st.cache = none ∧ ∃ m, fetch = .netError m) := by
  refine ⟨fun hfresh => ?_, fun hfail => ?_, fun herr => ?_⟩
  · unfold getJupiterTokens
    split
    · rename_i hcond
      rcases hcond with hnone | httl
      · exact absurd hnone (by simp)
      · exact absurd (show now - t > CacheDurationMs from httl) (by omega)
    · rfl
  · unfold getJupiterTokens
    rcases hfail with hhttp | ⟨m, hnet⟩
    · subst hhttp
      split
      · rfl
      · rfl
    · subst hnet
      split
      · show (if ({ cache := some c, time := t } : TokenCacheState).cache = none then _ else _)
            = _
        rw [if_neg (by simp)]
      · rfl
  · unfold getJupiterTokens at herr
    split at herr
    · split at herr
      · exact absurd herr (by simp)
      · exact absurd herr (by simp)
      · rename_i m
        split at herr
        · rename_i hnone
          exact ⟨hnone, m, rfl⟩
        · exact absurd herr (by simp)
    · exact absurd herr (by simp)

/-- Witness for claim C7: with a cached (possibly stale) directory a thrown
refresh is absorbed and the stale cache served; with no cache the same
thrown refresh propagates as the token-list error. -/
theorem claim_C7_witness :
    getJupiterTokens { cache := some [], time := 0 } 0 (.netError "x") =
      .ok (some [], { cache := some [], time := 0 }) ∧
    (({ cache := none, time := 0 } : TokenCacheState).cache = none ∧
      ∃ m, FetchOutcome.netError "x" = FetchOutcome.netError m) := by
  have h := claim_C7_token_cache_ttl_stale [] 0 0 { cache := none, time := 0 }
    (.netError "x") "Unable to fetch token list from Jupiter API"
  exact ⟨h.2.1 (Or.inr ⟨"x", rfl⟩), h.2.2 rfl⟩

/-- Counterexample to claim C3 as stated: with the wallet holding 0 SOL and
a requested amount of 1, the driver fails fast with `success=false` and
zero quote requests, but the returned record carries no `errorCategory` at
all — the claim's "errorCategory indicating insufficient funds" does not
exist on this path (only the error message does). -/
theorem claim_C3_counterexample :
    (executeImmediateTrade "SOL" "USDC" 1
      { balances := [{ symbol := "SOL", uiAmount := 0 }],
        toTokenLookup := .error "ignored", accountExists := false,
        swapEnv := { tokensResult := .error "ignored",
                     quoteResp := fun _ => .exn "ignored",
                     swapResp := fun _ => .exn "ignored",
                     signResult := .error "ignored",
                     confirm := .confirmed } }).1.errorCategory = none ∧
    (executeImmediateTrade "SOL" "USDC" 1
      { balances := [{ symbol := "SOL", uiAmount := 0 }],
        toTokenLookup := .error "ignored", accountExists := false,
        swapEnv := { tokensResult := .error "ignored",
                     quoteResp := fun _ => .exn "ignored",
                     swapResp := fun _ => .exn "ignored",
                     signResult := .error "ignored",
                     confirm := .confirmed } }).1.success = false ∧
    (executeImmediateTrade "SOL" "USDC" 1
      { balances := [{ symbol := "SOL", uiAmount := 0 }],
        toTokenLookup := .error "ignored", accountExists := false,
        swapEnv := { tokensResult := .error "ignored",
                     quoteResp := fun _ => .exn "ignored",
                     swapResp := fun _ => .exn "ignored",
                     signResult := .error "ignored",
                     confirm := .confirmed } }).2 = 0 :=
  ⟨rfl, rfl, rfl⟩

/-- Claim C3 as amended: whenever the wallet's `fromToken` entry holds
strictly less than the requested amount, the driver returns `success=false`
whose `error` is the insufficient-balance message — no `errorCategory`
field is set on this fail-fast path — and zero requests are made to the
quote service (the swap pipeline is never entered). -/
theorem claim_C3_insufficient_fail_fast (fromToken toToken : String) (amount : ℚ)
    (env : DcaEnv) (tok : WalletToken)
    (hfind : findWalletToken env.balances fromToken = some tok)
    (hlt : tok.uiAmount < amount) :
    executeImmediateTrade fromToken toToken amount env =
      ({ success := false
         error := some ("Insufficient " ++ fromToken ++ " balance. Available: " ++
           toString tok.uiAmount ++ ", required: " ++ toString amount) }, 0) ∧
    (executeImmediateTrade fromToken toToken amount env).1.success = false ∧
    (executeImmediateTrade fromToken toToken amount env).1.errorCategory = none ∧
    (executeImmediateTrade fromToken toToken amount env).2 = 0 := by
  have hmain : executeImmediateTrade fromToken toToken amount env =
      ({ success := false
         error := some ("Insufficient " ++ fromToken ++ " balance. Available: " ++
           toString tok.uiAmount ++ ", required: " ++ toString amount) }, 0) := by
    unfold executeImmediateTrade
    rw [hfind]
    simp only [if_pos hlt]
  refine ⟨hmain, ?_, ?_, ?_⟩ <;> rw [hmain]

/-- Witness for claim C3's amended theorem at a concrete wallet: 0 SOL
against a requested 1 SOL. -/
theorem claim_C3_witness :
    executeImmediateTrade "SOL" "USDT" 1
      { balances := [{ symbol := "SOL", uiAmount := 0 }],
        toTokenLookup := .error "e", accountExists := true,
        swapEnv := { tokensResult := .error "e",
                     quoteResp := fun _ => .exn "e",
                     swapResp := fun _ => .exn "e",
                     signResult := .error "e",
                     confirm := .confirmed } } =
      ({ success := false
         error := some ("Insufficient " ++ "SOL" ++ " balance. Available: " ++
           toString (0 : ℚ) ++ ", required: " ++ toString (1 : ℚ)) }, 0) := by
  have h := claim_C3_insufficient_fail_fast "SOL" "USDT" 1
    { balances := [{ symbol := "SOL", uiAmount := 0 }],
      toTokenLookup := .error "e", accountExists := true,
      swapEnv := { tokensResult := .error "e",
                   quoteResp := fun _ => .exn "e",
                   swapResp := fun _ => .exn "e",
                   signResult := .error "e",
                   confirm := .confirmed } }
    { symbol := "SOL", uiAmount := 0 } rfl (by norm_num)
  exact h.1

/-- Counterexample to claim C2 as stated: in a universal transfer that was
broadcast (the signer returned a hash), a confirmation that reports an
on-chain error is not merely logged — the function returns `success:false`
(and without the broadcast signature), contrary to the claim that the
result still has `success=true` and carries the signature. -/
theorem claim_C2_counterexample :
    transfer "SOL" 1 witnessTransferEnvChainError =
      { success := false, error := some ("Transaction failed: " ++ "boom") } ∧
    (transfer "SOL" 1 witnessTransferEnvChainError).success = false ∧
    (transfer "SOL" 1 witnessTransferEnvChainError).signature = none :=
  ⟨rfl, rfl, rfl⟩

/-- Claim C2 as amended: for a swap execution the confirmation outcome is
never consulted for the returned result (so neither a confirmation failure
nor a timeout changes it), and any result carrying a signature is a
`success=true` result whose signature is exactly the hash returned by the
broadcast. For a universal (non-swap) transfer that reached broadcast —
on the native-SOL path or on the SPL-token path (mint resolved, recipient
account conditionally created) alike — a confirmation call that throws
(timeout) leaves the result `success=true` with the broadcast signature,
but a confirmation that reports an on-chain error makes the transfer
return `success=false`. -/
theorem claim_C2_broadcast_authoritative (fromSym toSym tokenSymbol : String) (amt : ℚ)
    (opts : SwapOptions) (env : SwapEnv) (c : ConfirmOutcome) (tenv : TransferEnv)
    (bh hash m e : String) (tokenInfo : JupToken) :
    (swap fromSym toSym amt opts { env with confirm := c } =
      swap fromSym toSym amt opts env) ∧
    (∀ sig, (swap fromSym toSym amt opts env).1.signature = some sig →
      (swap fromSym toSym amt opts env).1.success = true ∧ env.signResult = .ok sig) ∧
    (tenv.blockhashResult = .ok bh → jsToUpper tokenSymbol = "SOL" →
      tenv.signResult = .ok hash →
      (tenv.confirm = .exn m →
        transfer tokenSymbol amt tenv =
          { success := true, signature := some hash, amount := some amt,
            token := some tokenSymbol }) ∧
      (tenv.confirm = .chainError e →
        transfer tokenSymbol amt tenv =
          { success := false, error := some ("Transaction failed: " ++ e) })) ∧
    (tenv.blockhashResult = .ok bh → ¬(jsToUpper tokenSymbol = "SOL") →
      tenv.tokenLookup = .ok tokenInfo → tenv.signResult = .ok hash →
      (tenv.confirm = .exn m →
        transfer tokenSymbol amt tenv =
          { success := true, signature := some hash, amount := some amt,
            token := some tokenSymbol }) ∧
      (tenv.confirm = .chainError e →
        transfer tokenSymbol amt tenv =
          { success := false, error := some ("Transaction failed: " ++ e) })) := by
  refine ⟨swap_confirm_not_read fromSym toSym amt opts env c,
    fun sig hsig => swap_signature_success fromSym toSym amt opts env sig hsig,
    fun hbh hsol hsig => ⟨fun hcf => ?_, fun hcf => ?_⟩,
    fun hbh hns htok hsig => ⟨fun hcf => ?_, fun hcf => ?_⟩⟩
  · rw [transfer_sol_reaches_broadcast tokenSymbol amt tenv bh hash hbh hsol hsig, hcf]
    rfl
  · rw [transfer_sol_reaches_broadcast tokenSymbol amt tenv bh hash hbh hsol hsig, hcf]
    rfl
  · rw [transfer_spl_reaches_broadcast tokenSymbol amt tenv bh hash tokenInfo hbh hns htok
      hsig, hcf]
    rfl
  · rw [transfer_spl_reaches_broadcast tokenSymbol amt tenv bh hash tokenInfo hbh hns htok
      hsig, hcf]
    rfl

/-- Witness for claim C2's amended theorem: a fully successful swap whose
confirmation reports an on-chain error still returns the broadcast hash
with `success=true`, and swapping the confirmation outcome for a thrown one
gives the identical result; a broadcast SOL transfer and a broadcast
SPL-token (USDC) transfer with a thrown confirmation both return
`success=true` with the hash, while the same transfers whose confirmation
reports an on-chain error return `success=false`. -/
theorem claim_C2_witness :
    (swap "SOL" "USDC" 1 dcaSwapOptions { witnessSwapEnv with confirm := .exn "t" } =
      swap "SOL" "USDC" 1 dcaSwapOptions witnessSwapEnv) ∧
    ((swap "SOL" "USDC" 1 dcaSwapOptions witnessSwapEnv).1.success = true ∧
      witnessSwapEnv.signResult = .ok "hash123") ∧
    transfer "SOL" 1 witnessTransferEnvTimeout =
      { success := true, signature := some "hashT", amount := some 1, token := some "SOL" } ∧
    transfer "SOL" 1 witnessTransferEnvChainError =
      { success := false, error := some ("Transaction failed: " ++ "boom") } ∧
    transfer "USDC" 1 witnessTransferEnvSplTimeout =
      { success := true, signature := some "hashT", amount := some 1,
        token := some "USDC" } ∧
    transfer "USDC" 1 witnessTransferEnvSplChainError =
      { success := false, error := some ("Transaction failed: " ++ "boom") } := by
  have h1 := claim_C2_broadcast_authoritative "SOL" "USDC" "SOL" 1 dcaSwapOptions
    witnessSwapEnv (.exn "t") witnessTransferEnvTimeout "bh" "hashT" "confirm timed out"
    "boom" witnessUsdcToken
  have h2 := claim_C2_broadcast_authoritative "SOL" "USDC" "SOL" 1 dcaSwapOptions
    witnessSwapEnv (.exn "t") witnessTransferEnvChainError "bh" "hashT" "confirm timed out"
    "boom" witnessUsdcToken
  have h3 := claim_C2_broadcast_authoritative "SOL" "USDC" "USDC" 1 dcaSwapOptions
    witnessSwapEnv (.exn "t") witnessTransferEnvSplTimeout "bh" "hashT" "confirm timed out"
    "boom" witnessUsdcToken
  have h4 := claim_C2_broadcast_authoritative "SOL" "USDC" "USDC" 1 dcaSwapOptions
    witnessSwapEnv (.exn "t") witnessTransferEnvSplChainError "bh" "hashT" "confirm timed out"
    "boom" witnessUsdcToken
  refine ⟨h1.1, h1.2.1 "hash123" rfl, ?_, ?_, ?_, ?_⟩
  · exact (h1.2.2.1 rfl rfl rfl).1 rfl
  · exact (h2.2.2.1 rfl rfl rfl).2 rfl
  · exact (h3.2.2.2 rfl (by decide) rfl rfl).1 rfl
  · exact (h4.2.2.2 rfl (by decide) rfl rfl).2 rfl

/-- Claim C8: `waitForPriceCondition` uses a default `maxWaitTime` of 24
hours and polls every `checkIntervalMs = 30000` milliseconds; an error in a
single poll (a check reporting `success=false`, which is also how the
check reports its own caught exceptions) does not abort the loop — the
loop simply continues with the next poll after the same delay; and when no
in-window poll ever reports the condition met, the call returns the
`timeout:true` result (a returned value, not a throw). -/
theorem claim_C8_wait_loop_resilient_timeout (feed : Nat → JsPrice) (tok : String)
    (target : ℚ) (above : Bool) (maxWait : Nat) :
    defaultMaxWaitMs = 24 * 60 * 60 * 1000 ∧
    checkIntervalMs = 30000 ∧
    (∀ i, checkIntervalMs * i < maxWait →
      (checkPriceCondition tok (feed i) target above).success = false →
      waitGo feed tok target above maxWait i =
        waitGo feed tok target above maxWait (i + 1)) ∧
    ((∀ i, checkIntervalMs * i < maxWait →
        ¬((checkPriceCondition tok (feed i) target above).success = true ∧
          (checkPriceCondition tok (feed i) target above).conditionMet = true)) →
      waitForPriceCondition feed tok target above maxWait = waitTimeoutResult) ∧
    waitTimeoutResult.timeout = true ∧
    waitTimeoutResult.success = true := by
  refine ⟨rfl, rfl, fun i hlt hfail => ?_, fun hall => ?_, rfl, rfl⟩
  · conv_lhs => rw [waitGo]
    split
    · simp [hfail]
    · rename_i hn
      exact absurd hlt hn
  · exact waitGo_timeout_of_never_met feed tok target above maxWait hall maxWait 0
      (by simp [checkIntervalMs])

/-- Witness for claim C8: a feed that always reports an upstream error
makes every poll fail without aborting the loop, and a 30-second window
expires into the timeout result. -/
theorem claim_C8_witness :
    waitForPriceCondition (fun _ => .obj (some false) none (some "x")) "SOL" 100 true 30000 =
      waitTimeoutResult ∧
    waitGo (fun _ => .obj (some false) none (some "x")) "SOL" 100 true 30000 0 =
      waitGo (fun _ => .obj (some false) none (some "x")) "SOL" 100 true 30000 1 := by
  have h := claim_C8_wait_loop_resilient_timeout
    (fun _ => .obj (some false) none (some "x")) "SOL" 100 true 30000
  refine ⟨h.2.2.2.1 ?_, h.2.2.1 0 (by norm_num [checkIntervalMs]) (by decide)⟩
  intro i _
  decide

/-- Claim C6: each configured "HH:MM" time is parsed as UTC wall-clock and
the parsed times are kept sorted ascending; whenever the recomputation
returns a next fire time it is strictly in the future, it is the earliest
configured time strictly after now on the same UTC day whenever one exists,
and otherwise it is the first configured time on the next day. In
particular, with times `["09:30","15:30"]`, at 09:00 UTC the next fire is
09:30 the same day and at 16:00 UTC it is 09:30 the next day. -/
theorem claim_C6_daily_times_next_fire (ts : List String) (nowMs next : Nat)
    (h : nextExecutionMs (parseTimes ts) nowMs = some next) :
    (parseTimes ts).Pairwise (fun a b => hmKey a ≤ hmKey b) ∧
    next > nowMs ∧
    (∀ t ∈ parseTimes ts,
      nowMs - nowMs % msPerDay + hmMs t > nowMs →
        next ≤ nowMs - nowMs % msPerDay + hmMs t) ∧
    ((∃ t ∈ parseTimes ts, nowMs - nowMs % msPerDay + hmMs t > nowMs) →
      ∃ t ∈ parseTimes ts, next = nowMs - nowMs % msPerDay + hmMs t) ∧
    ((∀ t ∈ parseTimes ts, nowMs - nowMs % msPerDay + hmMs t ≤ nowMs) →
      ∃ t0, (parseTimes ts).head? = some t0 ∧
        next = nowMs - nowMs % msPerDay + msPerDay + hmMs t0) ∧
    nextExecutionMs (parseTimes ["09:30", "15:30"]) (9 * 3600000) =
      some (9 * 3600000 + 30 * 60000) ∧
    nextExecutionMs (parseTimes ["09:30", "15:30"]) (16 * 3600000) =
      some (msPerDay + 9 * 3600000 + 30 * 60000) := by
  have hsort := parseTimes_sorted ts
  have hconc1 : nextExecutionMs (parseTimes ["09:30", "15:30"]) (9 * 3600000) =
      some (9 * 3600000 + 30 * 60000) := by decide
  have hconc2 : nextExecutionMs (parseTimes ["09:30", "15:30"]) (16 * 3600000) =
      some (msPerDay + 9 * 3600000 + 30 * 60000) := by decide
  simp only [nextExecutionMs] at h
  split at h
  · rename_i t hfeq
    injection h with hnext
    have hgtt := List.find?_some hfeq
    simp only [decide_eq_true_eq] at hgtt
    refine ⟨hsort, by omega, ?_,
      fun _ => ⟨t, List.mem_of_find?_eq_some hfeq, hnext.symm⟩,
      fun hall => absurd (hall t (List.mem_of_find?_eq_some hfeq)) (by omega),
      hconc1, hconc2⟩
    intro y hy hgt
    have hk := find?_min_of_sorted _ _ t hsort hfeq y hy (decide_eq_true hgt)
    have h1 := hmMs_eq_key t
    have h2 := hmMs_eq_key y
    omega
  · rename_i hfeq
    split at h
    · rename_i t0 hhead
      injection h with hnext
      have hmod : nowMs % msPerDay < msPerDay := Nat.mod_lt _ (by decide)
      have hmodle : nowMs % msPerDay ≤ nowMs := Nat.mod_le _ _
      refine ⟨hsort, by omega, ?_, ?_, fun _ => ⟨t0, hhead, hnext.symm⟩, hconc1, hconc2⟩
      · intro y hy hgt
        have hny := List.find?_eq_none.mp hfeq y hy
        simp only [decide_eq_true_eq] at hny
        omega
      · rintro ⟨t, ht, hgt⟩
        have hnt := List.find?_eq_none.mp hfeq t ht
        simp only [decide_eq_true_eq] at hnt
        exact absurd hgt hnt
    · exact absurd h (by simp)

/-- Witness for claim C6 at the spec's own example: times
`["09:30","15:30"]` and now 09:00 UTC give a strictly future next fire and
a sorted parsed list. -/
theorem claim_C6_witness :
    ((9 * 3600000 + 30 * 60000 : Nat) > 9 * 3600000) ∧
    (parseTimes ["09:30", "15:30"]).Pairwise (fun a b => hmKey a ≤ hmKey b) := by
  have h := claim_C6_daily_times_next_fire ["09:30", "15:30"] (9 * 3600000)
    (9 * 3600000 + 30 * 60000) (by decide)
  exact ⟨h.2.1, h.1⟩

end SolanaAgents
